import Mathlib

/-!
Shallow embedding of `run.py`, a CSV-to-HTML batch report generator.

The embedding models, faithfully to the Python source:
  * `parse_date`      : strptime over six fixed formats plus a regex fallback;
  * `process_csv_file`: the row scanner extracting (period, portal, peak);
  * `generate_html_report`, `generate_index_html`, `generate_css`: renderers;
  * `mainRun`         : the orchestrator, over a list of (filename, rows).

Machine-level notes on the translation:
  * CSV rows are modelled as `List (List String)` (the output of csv.reader).
  * Python datetime is modelled by `Date` (year, month, day as Nat) together
    with the calendar validity check the datetime constructor performs.
  * CPython strptime compiles each format to a regex; each directive is
    translated to its regex alternation, with the alternation tried in order
    (two-digit branches before one-digit), which reproduces the backtracking
    behaviour of the compiled pattern.  Whitespace in a format matches one or
    more whitespace characters.  After a regex match, strptime raises
    ValueError when characters remain, and the datetime constructor validates
    the calendar date; both appear below as explicit checks.
  * Logging is modelled by the list of emitted log levels that the claims
    refer to (the per-decision info/warning/error calls of the source).
-/

inductive Level where
  | debug
  | info
  | warning
  | error
deriving DecidableEq

structure Date where
  year : Nat
  month : Nat
  day : Nat
deriving DecidableEq

def isLeap (y : Nat) : Prop := y % 4 = 0 ∧ (y % 100 ≠ 0 ∨ y % 400 = 0)

instance (y : Nat) : Decidable (isLeap y) := by unfold isLeap; infer_instance

def daysInMonth (y m : Nat) : Nat :=
  if m = 2 then (if isLeap y then 29 else 28)
  else if m = 4 ∨ m = 6 ∨ m = 9 ∨ m = 11 then 30
  else 31

/-- The validity check performed by the Python datetime constructor
(`datetime` raises ValueError outside these bounds). -/
def mkDatetime (y m d : Nat) : Option Date :=
  if 1 ≤ y ∧ y ≤ 9999 ∧ 1 ≤ m ∧ m ≤ 12 ∧ 1 ≤ d ∧ d ≤ daysInMonth y m then
    some ⟨y, m, d⟩
  else none

def digitChar (n : Nat) : Char := Char.ofNat (48 + n)

def dval (c : Char) : Nat := c.toNat - 48

/-- The characters matched by regex whitespace over ASCII input. -/
def isPySpace (c : Char) : Bool :=
  c = ' ' ∨ c = '\t' ∨ c = '\n' ∨ c = '\x0b' ∨ c = '\x0c' ∨ c = '\r'

def firstSome {α : Type} : List (Option α) → Option α
  | [] => none
  | some a :: _ => some a
  | none :: t => firstSome t

/-- Case-insensitive match of a lowercase pattern against the front of the
input, as the IGNORECASE strptime regex does; returns the rest on success. -/
def ciMatch : List Char → List Char → Option (List Char)
  | [], cs => some cs
  | _ :: _, [] => none
  | p :: ps, c :: cs => if c.toLower = p then ciMatch ps cs else none

/-- Month names of the %B directive, longest first as in the compiled
strptime regex (no name is a prefix of another, so order is immaterial). -/
def lowerNames : List (Nat × List Char) :=
  [(9, ['s','e','p','t','e','m','b','e','r']),
   (2, ['f','e','b','r','u','a','r','y']),
   (11, ['n','o','v','e','m','b','e','r']),
   (12, ['d','e','c','e','m','b','e','r']),
   (1, ['j','a','n','u','a','r','y']),
   (10, ['o','c','t','o','b','e','r']),
   (8, ['a','u','g','u','s','t']),
   (3, ['m','a','r','c','h']),
   (4, ['a','p','r','i','l']),
   (6, ['j','u','n','e']),
   (7, ['j','u','l','y']),
   (5, ['m','a','y'])]

/-- The %B directive: first month name matching at the front of the input. -/
def parseB (cs : List Char) : Option (Nat × List Char) :=
  firstSome (lowerNames.map fun p => (ciMatch p.2 cs).map fun rest => (p.1, rest))

/-- Whitespace in a strptime format compiles to one-or-more whitespace. -/
def parseWs1 : List Char → Option (List Char)
  | [] => none
  | c :: cs => if isPySpace c then some (cs.dropWhile isPySpace) else none

/-- The %d directive compiles to `3[01]|[12]\d|0[1-9]|[1-9]`; the candidate
matches in regex alternation order (all two-digit branches come first). -/
def dayCands : List Char → List (Nat × List Char)
  | [] => []
  | [c1] => if c1.isDigit ∧ c1 ≠ '0' then [(dval c1, [])] else []
  | c1 :: c2 :: rest =>
    (if (c1 = '3' ∧ (c2 = '0' ∨ c2 = '1'))
        ∨ ((c1 = '1' ∨ c1 = '2') ∧ c2.isDigit)
        ∨ (c1 = '0' ∧ c2.isDigit ∧ c2 ≠ '0') then
      [(10 * dval c1 + dval c2, rest)]
    else [])
    ++ (if c1.isDigit ∧ c1 ≠ '0' then [(dval c1, c2 :: rest)] else [])

/-- The %m directive compiles to `1[0-2]|0[1-9]|[1-9]`. -/
def monthCands : List Char → List (Nat × List Char)
  | [] => []
  | [c1] => if c1.isDigit ∧ c1 ≠ '0' then [(dval c1, [])] else []
  | c1 :: c2 :: rest =>
    (if (c1 = '1' ∧ (c2 = '0' ∨ c2 = '1' ∨ c2 = '2'))
        ∨ (c1 = '0' ∧ c2.isDigit ∧ c2 ≠ '0') then
      [(10 * dval c1 + dval c2, rest)]
    else [])
    ++ (if c1.isDigit ∧ c1 ≠ '0' then [(dval c1, c2 :: rest)] else [])

/-- The %Y directive compiles to exactly four digits. -/
def parseY4 : List Char → Option (Nat × List Char)
  | a :: b :: c :: d :: rest =>
    if a.isDigit ∧ b.isDigit ∧ c.isDigit ∧ d.isDigit then
      some (((dval a * 10 + dval b) * 10 + dval c) * 10 + dval d, rest)
    else none
  | _ => none

/-- Regex of format `%B %d, %Y`; result is ((year, month, day), leftover). -/
def rx_BdY (cs : List Char) : Option ((Nat × Nat × Nat) × List Char) :=
  (parseB cs).bind fun mc =>
  (parseWs1 mc.2).bind fun cs1 =>
  firstSome ((dayCands cs1).map fun dc =>
    match dc.2 with
    | c :: cs2 =>
      if c = ',' then
        (parseWs1 cs2).bind fun cs3 =>
        (parseY4 cs3).map fun yc => ((yc.1, mc.1, dc.1), yc.2)
      else none
    | [] => none)

def try_BdY (cs : List Char) : Option Date :=
  match rx_BdY cs with
  | some (t, []) => mkDatetime t.1 t.2.1 t.2.2
  | _ => none

/-- Regex of format `%B %d`; strptime leaves the year at its default 1900. -/
def rx_Bd (cs : List Char) : Option ((Nat × Nat) × List Char) :=
  (parseB cs).bind fun mc =>
  (parseWs1 mc.2).bind fun cs1 =>
  firstSome ((dayCands cs1).map fun dc => some ((mc.1, dc.1), dc.2))

def try_Bd (cs : List Char) : Option Date :=
  match rx_Bd cs with
  | some (t, []) => mkDatetime 1900 t.1 t.2
  | _ => none

/-- Regex of format `%m/%d/%Y`. -/
def rx_mdY (cs : List Char) : Option ((Nat × Nat × Nat) × List Char) :=
  firstSome ((monthCands cs).map fun mc =>
    match mc.2 with
    | c :: cs1 =>
      if c = '/' then
        firstSome ((dayCands cs1).map fun dc =>
          match dc.2 with
          | c2 :: cs2 =>
            if c2 = '/' then (parseY4 cs2).map fun yc => ((yc.1, mc.1, dc.1), yc.2)
            else none
          | [] => none)
      else none
    | [] => none)

def try_mdY (cs : List Char) : Option Date :=
  match rx_mdY cs with
  | some (t, []) => mkDatetime t.1 t.2.1 t.2.2
  | _ => none

/-- Regex of format `%Y/%m/%d`. -/
def rx_Ymd (cs : List Char) : Option ((Nat × Nat × Nat) × List Char) :=
  (parseY4 cs).bind fun yc =>
  match yc.2 with
  | c :: cs1 =>
    if c = '/' then
      firstSome ((monthCands cs1).map fun mc =>
        match mc.2 with
        | c2 :: cs2 =>
          if c2 = '/' then
            firstSome ((dayCands cs2).map fun dc => some ((yc.1, mc.1, dc.1), dc.2))
          else none
        | [] => none)
    else none
  | [] => none

def try_Ymd (cs : List Char) : Option Date :=
  match rx_Ymd cs with
  | some (t, []) => mkDatetime t.1 t.2.1 t.2.2
  | _ => none

/-- Regex of format `%d-%m-%Y`. -/
def rx_dmY (cs : List Char) : Option ((Nat × Nat × Nat) × List Char) :=
  firstSome ((dayCands cs).map fun dc =>
    match dc.2 with
    | c :: cs1 =>
      if c = '-' then
        firstSome ((monthCands cs1).map fun mc =>
          match mc.2 with
          | c2 :: cs2 =>
            if c2 = '-' then (parseY4 cs2).map fun yc => ((yc.1, mc.1, dc.1), yc.2)
            else none
          | [] => none)
      else none
    | [] => none)

def try_dmY (cs : List Char) : Option Date :=
  match rx_dmY cs with
  | some (t, []) => mkDatetime t.1 t.2.1 t.2.2
  | _ => none

/-- Regex of format `%Y-%m-%d`. -/
def rx_Ymd2 (cs : List Char) : Option ((Nat × Nat × Nat) × List Char) :=
  (parseY4 cs).bind fun yc =>
  match yc.2 with
  | c :: cs1 =>
    if c = '-' then
      firstSome ((monthCands cs1).map fun mc =>
        match mc.2 with
        | c2 :: cs2 =>
          if c2 = '-' then
            firstSome ((dayCands cs2).map fun dc => some ((yc.1, mc.1, dc.1), dc.2))
          else none
        | [] => none)
    else none
  | [] => none

def try_Ymd2 (cs : List Char) : Option Date :=
  match rx_Ymd2 cs with
  | some (t, []) => mkDatetime t.1 t.2.1 t.2.2
  | _ => none

/-- Regex of format `%B %d %Y`, used on the string the fallback assembles. -/
def rx_BdY2 (cs : List Char) : Option ((Nat × Nat × Nat) × List Char) :=
  (parseB cs).bind fun mc =>
  (parseWs1 mc.2).bind fun cs1 =>
  firstSome ((dayCands cs1).map fun dc =>
    (parseWs1 dc.2).bind fun cs2 =>
    (parseY4 cs2).map fun yc => ((yc.1, mc.1, dc.1), yc.2))

def try_BdY2 (cs : List Char) : Option Date :=
  match rx_BdY2 cs with
  | some (t, []) => mkDatetime t.1 t.2.1 t.2.2
  | _ => none

/-- Word characters of the regex fallback (`\w` over the ASCII inputs). -/
def isWordChar (c : Char) : Bool := c.isAlpha ∨ c.isDigit ∨ c = '_'

/-- The optional group `(?:,?\s+(\d{4}))?` of the fallback search: an
optional comma, then whitespace, then four digits; if the comma is present
but not followed by whitespace, dropping the comma cannot help since the
comma is not whitespace, so stripping one optional comma is exact. -/
def fbYear (cs : List Char) : Option (List Char) :=
  (parseWs1 (match cs with | ',' :: t => t | _ => cs)).bind fun cs2 =>
  match cs2 with
  | a :: b :: c :: d :: _ =>
    if a.isDigit ∧ b.isDigit ∧ c.isDigit ∧ d.isDigit then some [a, b, c, d] else none
  | _ => none

/-- One attempt of the fallback `re.search` pattern
`(\w+)\s+(\d{1,2})(?:,?\s+(\d{4}))?` anchored at the current position.
A shorter `\w+` match leaves a word character where `\s+` must match, so
only the maximal run can succeed; `\d{1,2}` is greedy and the trailing
group is optional, so no further backtracking can occur. -/
def fbHere (cs : List Char) : Option (List Char × List Char × Option (List Char)) :=
  let w := cs.takeWhile isWordChar
  if w.isEmpty then none
  else
    (parseWs1 (cs.dropWhile isWordChar)).bind fun rest =>
    match rest with
    | a :: b :: rest2 =>
      if a.isDigit ∧ b.isDigit then some (w, [a, b], fbYear rest2)
      else if a.isDigit then some (w, [a], fbYear (b :: rest2))
      else none
    | [a] => if a.isDigit then some (w, [a], none) else none
    | [] => none

/-- `re.search` scans start positions left to right. -/
def fbSearch : List Char → Option (List Char × List Char × Option (List Char))
  | [] => none
  | c :: cs =>
    match fbHere (c :: cs) with
    | some r => some r
    | none => fbSearch cs

/-- `parse_date` of run.py: the six formats in order, then the regex
fallback, which re-parses `f"{month} {day} {year}"` with `%B %d %Y`,
the year group defaulting to the string 2024. -/
def parse_date (s : String) : Option Date :=
  match firstSome [try_BdY s.data, try_Bd s.data, try_mdY s.data,
                   try_Ymd s.data, try_dmY s.data, try_Ymd2 s.data] with
  | some d => some d
  | none =>
    match fbSearch s.data with
    | none => none
    | some g => try_BdY2 (g.1 ++ ' ' :: g.2.1 ++ ' ' :: g.2.2.getD ['2', '0', '2', '4'])

def monthChars : Nat → List Char
  | 1 => ['J','a','n','u','a','r','y']
  | 2 => ['F','e','b','r','u','a','r','y']
  | 3 => ['M','a','r','c','h']
  | 4 => ['A','p','r','i','l']
  | 5 => ['M','a','y']
  | 6 => ['J','u','n','e']
  | 7 => ['J','u','l','y']
  | 8 => ['A','u','g','u','s','t']
  | 9 => ['S','e','p','t','e','m','b','e','r']
  | 10 => ['O','c','t','o','b','e','r']
  | 11 => ['N','o','v','e','m','b','e','r']
  | 12 => ['D','e','c','e','m','b','e','r']
  | _ => []

def monthNameStr (m : Nat) : String := ⟨monthChars m⟩

def pad2 (n : Nat) : List Char := [digitChar (n / 10), digitChar (n % 10)]

def pad2Str (n : Nat) : String := ⟨pad2 n⟩

def digits4 (n : Nat) : List Char :=
  [digitChar (n / 1000), digitChar (n / 100 % 10), digitChar (n / 10 % 10), digitChar (n % 10)]

def digits4Str (n : Nat) : String := ⟨digits4 n⟩

/-- strftime("%B-%y") of a datetime: full month name, dash, zero-padded
two-digit year. -/
def fmtBy (d : Date) : String := monthNameStr d.month ++ "-" ++ pad2Str (d.year % 100)

/-- The normalized period label a date string yields, when it parses. -/
def labelOf (s : String) : Option String := (parse_date s).map fmtBy

/-- A date string rendered with strftime format `%B %d, %Y`
(month name, space, zero-padded day, comma, space, four-digit year). -/
def render1 (m d y : Nat) : String :=
  ⟨monthChars m ++ ' ' :: (pad2 d ++ ',' :: ' ' :: digits4 y)⟩

/-- A date string rendered with strftime format `%B %d`. -/
def render2 (m d : Nat) : String := ⟨monthChars m ++ ' ' :: pad2 d⟩

/-- A date string rendered with strftime format `%m/%d/%Y`. -/
def render3 (m d y : Nat) : String :=
  ⟨pad2 m ++ '/' :: (pad2 d ++ '/' :: digits4 y)⟩

/-- A date string rendered with strftime format `%Y/%m/%d`. -/
def render4 (m d y : Nat) : String :=
  ⟨digits4 y ++ '/' :: (pad2 m ++ '/' :: pad2 d)⟩

/-- A date string rendered with strftime format `%d-%m-%Y`. -/
def render5 (m d y : Nat) : String :=
  ⟨pad2 d ++ '-' :: (pad2 m ++ '-' :: digits4 y)⟩

/-- A date string rendered with strftime format `%Y-%m-%d`. -/
def render6 (m d y : Nat) : String :=
  ⟨digits4 y ++ '-' :: (pad2 m ++ '-' :: pad2 d)⟩

/-- The label the spec expects from a (month, day, year) triple:
full month name, dash, two-digit year. -/
def expectedLabel (m y : Nat) : String :=
  monthNameStr m ++ "-" ++ pad2Str (y % 100)

def leadsWith : List Char → List Char → Bool
  | [], _ => true
  | _ :: _, [] => false
  | p :: ps, c :: cs => p = c ∧ leadsWith ps cs

/-- Python str.startswith. -/
def strStartsWith (s p : String) : Bool := leadsWith p.data s.data

def peakLabel : String := "Peak Contacts"

/-- The mutable state of the row loop of process_csv_file.  The Python
loop reads rows from the shared csv.reader iterator; after the
Experience Portal marker it consumes rows from that same iterator until
one has a non-empty first cell.  Here that consumption is the `seeking`
mode: rows handled in seeking mode never reach the marker tests. -/
structure ScanState where
  peak : Option String
  portal : Option String
  date : Option String
  seeking : Bool
deriving DecidableEq

def scanRows : ScanState → List (List String) → ScanState
  | s, [] => s
  | s, r :: rest =>
    if s.seeking then
      match r with
      | [] => scanRows s rest
      | c :: _ =>
        if c = "" then scanRows s rest
        else scanRows ⟨s.peak, some c, s.date, false⟩ rest
    else
      match r with
      | c0 :: c1 :: _ =>
        if c0 = "Time Period" then
          match parse_date c1 with
          | some dt => scanRows ⟨s.peak, s.portal, some (fmtBy dt), s.seeking⟩ rest
          | none => scanRows s rest
        else if strStartsWith c0 peakLabel then
          scanRows ⟨some c1, s.portal, s.date, s.seeking⟩ rest
        else if c0 = "Experience Portal" then
          scanRows ⟨s.peak, none, s.date, true⟩ rest
        else scanRows s rest
      | _ => scanRows s rest

/-- process_csv_file on the parsed rows of one file: the final
`if portal and peak_contacts and date` truthiness test of the source. -/
def process_csv_file (rows : List (List String)) : Option (String × String × String) :=
  match scanRows ⟨none, none, none, false⟩ rows with
  | ⟨some pk, some p, some d, _⟩ =>
    if p ≠ "" ∧ pk ≠ "" ∧ d ≠ "" then some (d, p, pk) else none
  | _ => none

/-- The level of the final log line process_csv_file emits for a file:
info on success, warning when data is missing. -/
def processLevel (rows : List (List String)) : Level :=
  if (process_csv_file rows).isSome then Level.info else Level.warning

/-- Python truthiness of an optional string. -/
def truthy : Option String → Bool
  | none => false
  | some s => s ≠ ""

/-- A row matched by the marker tests of the scanner loop. -/
def isMarkerRow (r : List String) : Bool :=
  match r with
  | c0 :: _ :: _ =>
    (decide (c0 = "Time Period") || strStartsWith c0 peakLabel)
      || decide (c0 = "Experience Portal")
  | _ => false

/-- Python string comparison: lexicographic on code points. -/
def pyLtChars : List Char → List Char → Bool
  | [], [] => false
  | [], _ :: _ => true
  | _ :: _, [] => false
  | a :: as, b :: bs => if a = b then pyLtChars as bs else decide (a.toNat < b.toNat)

def pyLt (a b : String) : Bool := pyLtChars a.data b.data

/-- Python tuple comparison on (date, filename) pairs, as used by
`sorted(data_by_date.items(), reverse=True)`. -/
def pairLt (a b : String × String) : Bool :=
  pyLt a.1 b.1 ∨ (a.1 = b.1 ∧ pyLt a.2 b.2)

def insertDesc (x : String × String) : List (String × String) → List (String × String)
  | [] => [x]
  | y :: t => if pairLt x y then y :: insertDesc x t else x :: y :: t

/-- `sorted(items, reverse=True)`: stable descending sort. -/
def pySortDesc (l : List (String × String)) : List (String × String) :=
  l.foldr insertDesc []

def substrB : List Char → List Char → Bool
  | pat, [] => leadsWith pat []
  | pat, c :: t => leadsWith pat (c :: t) || substrB pat t

/-- Python `pat in s` substring test, used to state containment facts
about the generated HTML. -/
def strContains (s pat : String) : Bool := substrB pat.data s.data

def liFrag (p : String × String) : String :=
  "<li><a href=\"" ++ p.2 ++ "\">" ++ p.1 ++ "</a></li>"

def indexHead : String :=
  "\n    <!DOCTYPE html>\n    <html lang=\"en\">\n    <head>\n        <meta charset=\"UTF-8\">\n        <meta name=\"viewport\" content=\"width=device-width, initial-scale=1.0\">\n        <title>Experience Portal Data Index</title>\n        <link rel=\"stylesheet\" href=\"styles.css\">\n    </head>\n    <body>\n        <h1>Experience Portal Data Index</h1>\n        <ul>\n    "

def indexTail : String := "\n        </ul>\n    </body>\n    </html>\n    "

/-- generate_index_html of run.py. -/
def generate_index_html (items : List (String × String)) : String :=
  indexHead ++ String.join ((pySortDesc items).map liFrag) ++ indexTail

def rowFrag (pc : String × String) : String :=
  "\n            <tr>\n                <td>" ++ pc.1 ++ "</td>\n                <td>" ++ pc.2 ++ "</td>\n            </tr>\n        "

/-- The part of the first report f-string before the table element. -/
def reportTitleHead (title : String) : String :=
  "\n    <!DOCTYPE html>\n    <html lang=\"en\">\n    <head>\n        <meta charset=\"UTF-8\">\n        <meta name=\"viewport\" content=\"width=device-width, initial-scale=1.0\">\n        <title>" ++ title ++ "</title>\n        <link rel=\"stylesheet\" href=\"styles.css\">\n    </head>\n    <body>\n        <h1>" ++ title ++ "</h1>\n        "

/-- The table opening and header row, ending the first report f-string. -/
def tableHead : String :=
  "<table>\n            <tr>\n                <th>Experience Portal</th>\n                <th>Peak Contacts</th>\n            </tr>\n    "

def reportHead (title : String) : String := reportTitleHead title ++ tableHead

/-- The table closing, starting the final report f-string. -/
def tableClose : String := "\n        </table>"

def reportAfterTable : String :=
  "\n        <p><a href=\"index.html\">View All Reports</a></p>\n    </body>\n    </html>\n    "

def reportTail : String := tableClose ++ reportAfterTable

/-- generate_html_report of run.py. -/
def generate_html_report (date : String) (data : List (String × String)) (is_output : Bool) : String :=
  reportHead (if is_output then "Latest Experience Portal Data"
              else "Experience Portal Data - " ++ date)
    ++ String.join (data.map rowFrag) ++ reportTail

/-- The table element of a report page, determined by the data alone. -/
def tableHtml (data : List (String × String)) : String :=
  tableHead ++ String.join (data.map rowFrag) ++ tableClose

/-- generate_css of run.py (braces written as hex escapes). -/
def generate_css : String :=
  "\n    body \x7b\n        font-family: Arial, sans-serif;\n        line-height: 1.6;\n        color: #333;\n        max-width: 800px;\n        margin: 0 auto;\n        padding: 20px;\n    \x7d\n    h1 \x7b\n        color: #2c3e50;\n    \x7d\n    table \x7b\n        width: 100%;\n        border-collapse: collapse;\n        margin-top: 20px;\n        box-shadow: 0 0 20px rgba(0, 0, 0, 0.1);\n    \x7d\n    th, td \x7b\n        padding: 12px 15px;\n        text-align: left;\n        border-bottom: 1px solid #e0e0e0;\n    \x7d\n    th \x7b\n        background-color: #3498db;\n        color: white;\n        text-transform: uppercase;\n        font-weight: bold;\n    \x7d\n    tr:nth-child(even) \x7b\n        background-color: #f8f8f8;\n    \x7d\n    tr:hover \x7b\n        background-color: #e8f4f8;\n    \x7d\n    a \x7b\n        color: #3498db;\n        text-decoration: none;\n    \x7d\n    a:hover \x7b\n        text-decoration: underline;\n    \x7d\n    "

/-- data_by_date[date].append((portal, peak)): defaultdict(list) keeps
keys in first-insertion order and appends per key. -/
def addEntry : List (String × List (String × String)) → String → String × String → List (String × List (String × String))
  | [], k, v => [(k, [v])]
  | e :: t, k, v =>
    if e.1 = k then (e.1, e.2 ++ [v]) :: t else e :: addEntry t k v

/-- `if latest_date is None or date > latest_date: latest_date = date`. -/
def updLatest (cur : Option String) (d : String) : Option String :=
  match cur with
  | none => some d
  | some l => if pyLt l d then some d else some l

/-- The per-file loop of main: group successes by period, track the
maximum period label under string comparison. -/
def scanFiles : List (String × List (String × String)) → Option String →
    List (String × List (List String)) → List (String × List (String × String)) × Option String
  | acc, latest, [] => (acc, latest)
  | acc, latest, f :: fs =>
    match process_csv_file f.2 with
    | some r => scanFiles (addEntry acc r.1 (r.2.1, r.2.2)) (updLatest latest r.1) fs
    | none => scanFiles acc latest fs

def groupLookup (g : List (String × List (String × String))) (k : String) : List (String × String) :=
  (List.lookup k g).getD []

/-- Python str.replace with the single-character pattern a space. -/
def replaceSpaces (s : String) : String :=
  ⟨s.data.map fun c => if c = ' ' then '_' else c⟩

def reportName (d : String) : String := "report_" ++ replaceSpaces d ++ ".html"

structure RunResult where
  writes : List (String × String)
  logs : List Level

/-- main of run.py over a virtual directory: a list of (filename, parsed
rows).  `writes` lists the files written under output/ in write order;
`logs` lists the emitted log levels at the decision points of main. -/
def mainRun (files : List (String × List (List String))) : RunResult :=
  let g := scanFiles [] none files
  let logs0 := Level.info :: files.map fun f => processLevel f.2
  if g.1.isEmpty then
    ⟨[("styles.css", generate_css)], logs0 ++ [Level.error, Level.info]⟩
  else
    ⟨(g.1.map fun e => (reportName e.1, generate_html_report e.1 e.2 false))
       ++ [("index.html", generate_index_html (g.1.map fun e => (e.1, reportName e.1)))]
       ++ (match g.2 with
           | some ld => [("output.html", generate_html_report ld (groupLookup g.1 ld) true)]
           | none => [])
       ++ [("styles.css", generate_css)],
     logs0 ++ (g.1.map fun _ => Level.info) ++ [Level.info, Level.info]
       ++ (match g.2 with | some _ => [Level.info] | none => []) ++ [Level.info]⟩

/-- Records successfully extracted, in file-scan order. -/
def successesOf (files : List (String × List (List String))) : List (String × String × String) :=
  files.filterMap fun f => process_csv_file f.2

def labelsOf (files : List (String × List (List String))) : List String :=
  (successesOf files).map fun r => r.1

def groupsOf (files : List (String × List (List String))) : List (String × List (String × String)) :=
  (scanFiles [] none files).1

def latestOf (files : List (String × List (List String))) : Option String :=
  (scanFiles [] none files).2

def groupOf (files : List (String × List (List String))) (lbl : String) : List (String × String) :=
  groupLookup (groupsOf files) lbl

/-- The (portal, count) pairs of the successful records carrying a given
label, in file-scan order. -/
def orderedOf (files : List (String × List (List String))) (lbl : String) : List (String × String) :=
  (successesOf files).filterMap fun r => if r.1 = lbl then some (r.2.1, r.2.2) else none

def c1rows : List (List String) :=
  [["Time Period", "July 20, 2024"],
   ["Peak Contacts (rows)", "42"],
   ["Experience Portal", ""],
   [],
   ["PortalA"]]

def c5items : List (String × String) :=
  [("July-24", "report_July-24.html"),
   ("June-24", "report_June-24.html"),
   ("August-24", "report_August-24.html")]

def c6files : List (String × List (List String)) :=
  [("a.csv", [["Time Period", "July 20, 2024"], ["Peak Contacts (rows)", "7"],
              ["Experience Portal", ""], ["PortalA"]]),
   ("b.csv", [["Time Period", "July 21, 2024"], ["Peak Contacts (rows)", "9"],
              ["Experience Portal", ""], ["PortalB"]])]

def c7files : List (String × List (List String)) :=
  [("a.csv", [["Time Period", "June 20, 2024"], ["Peak Contacts (rows)", "7"],
              ["Experience Portal", ""], ["PortalA"]]),
   ("b.csv", [["Time Period", "July 21, 2024"], ["Peak Contacts (rows)", "9"],
              ["Experience Portal", ""], ["PortalB"]])]

def c4rows : List (List String) :=
  [["Peak Contacts (rows)", "42"], ["Experience Portal", ""], ["PortalA"]]

def c3rows : List (List String) :=
  [["Time Period", "July 20, 2024"],
   ["Peak Contacts (rows)", "42"],
   ["Experience Portal", ""],
   ["PortalA"]]

/-! ## Utility lemmas about characters and digits -/

theorem digitChar_toNat {k : Nat} (h : k ≤ 9) : (digitChar k).toNat = 48 + k := by
  interval_cases k <;> decide

theorem digitChar_isDigit {k : Nat} (h : k ≤ 9) : (digitChar k).isDigit = true := by
  interval_cases k <;> decide

theorem dval_digitChar {k : Nat} (h : k ≤ 9) : dval (digitChar k) = k := by
  interval_cases k <;> decide

theorem digitChar_not_space {k : Nat} (h : k ≤ 9) : isPySpace (digitChar k) = false := by
  interval_cases k <;> decide

theorem digitChar_ne_comma {k : Nat} (h : k ≤ 9) : digitChar k ≠ ',' := by
  interval_cases k <;> decide

theorem digitChar_ne_dash {k : Nat} (h : k ≤ 9) : digitChar k ≠ '-' := by
  interval_cases k <;> decide

theorem digitChar_ne_slash {k : Nat} (h : k ≤ 9) : digitChar k ≠ '/' := by
  interval_cases k <;> decide

theorem firstSome_cons_some {α : Type} {a : α} {t : List (Option α)} {b : α}
    (h : a = b) : firstSome (some a :: t) = some b := by
  simp [firstSome, h]

theorem firstSome_head_some {α β : Type} {l : List α} {k : α → Option β} {a : α} {b : β}
    (h : l.head? = some a) (hk : k a = some b) : firstSome (l.map k) = some b := by
  cases l with
  | nil => simp at h
  | cons x t =>
    have hx : x = a := by simpa using h
    subst hx
    simp [firstSome, hk]

theorem firstSome_map_none {α β : Type} {l : List α} {k : α → Option β}
    (h : ∀ a ∈ l, k a = none) : firstSome (l.map k) = none := by
  induction l with
  | nil => rfl
  | cons x t ih =>
    have hx := h x (by simp)
    simp [firstSome, hx]
    exact ih fun a ha => h a (by simp [ha])

theorem parseY4_cons {y : Nat} (hy : y ≤ 9999) (rest : List Char) :
    parseY4 (digitChar (y / 1000) :: digitChar (y / 100 % 10) ::
      digitChar (y / 10 % 10) :: digitChar (y % 10) :: rest) = some (y, rest) := by
  have h1 : y / 1000 ≤ 9 := by omega
  have h2 : y / 100 % 10 ≤ 9 := by omega
  have h3 : y / 10 % 10 ≤ 9 := by omega
  have h4 : y % 10 ≤ 9 := by omega
  simp [parseY4, digitChar_isDigit, h1, h2, h3, h4, dval_digitChar]
  omega

theorem daysInMonth_le {y m : Nat} : daysInMonth y m ≤ 31 := by
  unfold daysInMonth
  split
  · split <;> omega
  · split <;> omega

/-! ## Behaviour of the directive parsers on rendered components -/

theorem parseB_month {m : Nat} (hm1 : 1 ≤ m) (hm2 : m ≤ 12) (rest : List Char) :
    parseB (monthChars m ++ rest) = some (m, rest) := by
  interval_cases m <;>
    simp +decide [parseB, lowerNames, ciMatch, monthChars, firstSome]

theorem parseB_digit {k : Nat} (hk : k ≤ 9) (cs : List Char) :
    parseB (digitChar k :: cs) = none := by
  interval_cases k <;>
    simp +decide [parseB, lowerNames, ciMatch, firstSome]

theorem dayCands_cons {d : Nat} (hd1 : 1 ≤ d) (hd2 : d ≤ 31) (rest : List Char) :
    (dayCands (digitChar (d / 10) :: digitChar (d % 10) :: rest)).head? = some (d, rest) := by
  interval_cases d <;> simp +decide [dayCands]

theorem monthCands_cons {m : Nat} (hm1 : 1 ≤ m) (hm2 : m ≤ 12) (rest : List Char) :
    (monthCands (digitChar (m / 10) :: digitChar (m % 10) :: rest)).head? = some (m, rest) := by
  interval_cases m <;> simp +decide [monthCands]

theorem dayCands_shape {cs : List Char} {p : Nat × List Char} (hp : p ∈ dayCands cs) :
    p.2 = cs.drop 1 ∨ p.2 = cs.drop 2 := by
  match cs with
  | [] => simp [dayCands] at hp
  | [c1] =>
    rw [dayCands] at hp
    split at hp <;> simp_all
  | c1 :: c2 :: rest =>
    rw [dayCands] at hp
    rcases List.mem_append.1 hp with h | h <;> (split at h <;> simp_all)

theorem monthCands_shape {cs : List Char} {p : Nat × List Char} (hp : p ∈ monthCands cs) :
    p.2 = cs.drop 1 ∨ p.2 = cs.drop 2 := by
  match cs with
  | [] => simp [monthCands] at hp
  | [c1] =>
    rw [monthCands] at hp
    split at hp <;> simp_all
  | c1 :: c2 :: rest =>
    rw [monthCands] at hp
    rcases List.mem_append.1 hp with h | h <;> (split at h <;> simp_all)

theorem parseWs1_space {c : Char} (hc : isPySpace c = false) (rest : List Char) :
    parseWs1 (' ' :: c :: rest) = some (c :: rest) := by
  simp [parseWs1, List.dropWhile, hc]
  decide

theorem mkDatetime_pos {y m d : Nat} (hy1 : 1 ≤ y) (hy2 : y ≤ 9999) (hm1 : 1 ≤ m)
    (hm2 : m ≤ 12) (hd1 : 1 ≤ d) (hd2 : d ≤ daysInMonth y m) :
    mkDatetime y m d = some ⟨y, m, d⟩ := by
  rw [mkDatetime, if_pos]
  exact ⟨hy1, hy2, hm1, hm2, hd1, hd2⟩

/-! ## parse_date on each rendered format -/

theorem try_BdY_render1 {m d y : Nat} (hm1 : 1 ≤ m) (hm2 : m ≤ 12) (hd1 : 1 ≤ d)
    (hd2 : d ≤ 31) (hy1 : 1000 ≤ y) (hy2 : y ≤ 9999) (hv : d ≤ daysInMonth y m) :
    try_BdY (render1 m d y).data = some ⟨y, m, d⟩ := by
  have hds : (render1 m d y).data
      = monthChars m ++ ' ' :: digitChar (d / 10) :: digitChar (d % 10) ::
        ',' :: ' ' :: digitChar (y / 1000) :: digitChar (y / 100 % 10) ::
        digitChar (y / 10 % 10) :: digitChar (y % 10) :: [] := by
    simp [render1, pad2, digits4]
  have hrx : rx_BdY (render1 m d y).data = some ((y, m, d), []) := by
    rw [rx_BdY, hds, parseB_month hm1 hm2]
    simp only [Option.bind_some, Option.some_bind]
    rw [parseWs1_space (digitChar_not_space (by omega))]
    simp only [Option.bind_some, Option.some_bind]
    apply firstSome_head_some (dayCands_cons hd1 hd2 _)
    have hs : isPySpace (digitChar (y / 1000)) = false := digitChar_not_space (by omega)
    simp [parseWs1_space hs, parseY4_cons hy2]
  rw [try_BdY, hrx]
  exact mkDatetime_pos (by omega) hy2 hm1 hm2 hd1 hv

theorem try_BdY_digit {k : Nat} (hk : k ≤ 9) (cs : List Char) :
    try_BdY (digitChar k :: cs) = none := by
  simp [try_BdY, rx_BdY, parseB_digit hk]

theorem try_Bd_digit {k : Nat} (hk : k ≤ 9) (cs : List Char) :
    try_Bd (digitChar k :: cs) = none := by
  simp [try_Bd, rx_Bd, parseB_digit hk]

theorem try_BdY_render2 {m d : Nat} (hm1 : 1 ≤ m) (hm2 : m ≤ 12) (hd1 : 1 ≤ d)
    (hd2 : d ≤ 31) : try_BdY (render2 m d).data = none := by
  have hds : (render2 m d).data
      = monthChars m ++ ' ' :: digitChar (d / 10) :: digitChar (d % 10) :: [] := by
    simp [render2, pad2]
  have hrx : rx_BdY (render2 m d).data = none := by
    rw [rx_BdY, hds, parseB_month hm1 hm2]
    simp only [Option.some_bind]
    rw [parseWs1_space (digitChar_not_space (by omega))]
    simp only [Option.some_bind]
    apply firstSome_map_none
    intro p hp
    rcases dayCands_shape hp with h | h
    · rw [h]
      simp [digitChar_ne_comma (show d % 10 ≤ 9 by omega)]
    · rw [h]
      simp
  simp [try_BdY, hrx]

theorem try_Bd_render2 {m d : Nat} (hm1 : 1 ≤ m) (hm2 : m ≤ 12) (hd1 : 1 ≤ d)
    (hd2 : d ≤ 31) : try_Bd (render2 m d).data = mkDatetime 1900 m d := by
  have hds : (render2 m d).data
      = monthChars m ++ ' ' :: digitChar (d / 10) :: digitChar (d % 10) :: [] := by
    simp [render2, pad2]
  have hrx : rx_Bd (render2 m d).data = some ((m, d), []) := by
    rw [rx_Bd, hds, parseB_month hm1 hm2]
    simp only [Option.some_bind]
    rw [parseWs1_space (digitChar_not_space (by omega))]
    simp only [Option.some_bind]
    exact firstSome_head_some (dayCands_cons hd1 hd2 _) rfl
  simp [try_Bd, hrx]

theorem try_mdY_render3 {m d y : Nat} (hm1 : 1 ≤ m) (hm2 : m ≤ 12) (hd1 : 1 ≤ d)
    (hd2 : d ≤ 31) (hy1 : 1000 ≤ y) (hy2 : y ≤ 9999) (hv : d ≤ daysInMonth y m) :
    try_mdY (render3 m d y).data = some ⟨y, m, d⟩ := by
  have hds : (render3 m d y).data
      = digitChar (m / 10) :: digitChar (m % 10) :: '/' ::
        digitChar (d / 10) :: digitChar (d % 10) :: '/' ::
        digitChar (y / 1000) :: digitChar (y / 100 % 10) ::
        digitChar (y / 10 % 10) :: digitChar (y % 10) :: [] := by
    simp [render3, pad2, digits4]
  have hrx : rx_mdY (render3 m d y).data = some ((y, m, d), []) := by
    rw [rx_mdY, hds]
    refine firstSome_head_some (monthCands_cons hm1 hm2 _) ?_
    simp only []
    refine firstSome_head_some (dayCands_cons hd1 hd2 _) ?_
    simp [parseY4_cons hy2]
  rw [try_mdY, hrx]
  exact mkDatetime_pos (by omega) hy2 hm1 hm2 hd1 hv

theorem try_mdY_digits4 {y : Nat} (hy : y ≤ 9999) (cs : List Char) :
    try_mdY (digitChar (y / 1000) :: digitChar (y / 100 % 10) ::
      digitChar (y / 10 % 10) :: digitChar (y % 10) :: cs) = none := by
  have hrx : rx_mdY (digitChar (y / 1000) :: digitChar (y / 100 % 10) ::
      digitChar (y / 10 % 10) :: digitChar (y % 10) :: cs) = none := by
    rw [rx_mdY]
    apply firstSome_map_none
    intro p hp
    rcases monthCands_shape hp with h | h
    · rw [h]
      simp [digitChar_ne_slash (show y / 100 % 10 ≤ 9 by omega)]
    · rw [h]
      simp [digitChar_ne_slash (show y / 10 % 10 ≤ 9 by omega)]
  simp [try_mdY, hrx]

theorem try_Ymd_render4 {m d y : Nat} (hm1 : 1 ≤ m) (hm2 : m ≤ 12) (hd1 : 1 ≤ d)
    (hd2 : d ≤ 31) (hy1 : 1000 ≤ y) (hy2 : y ≤ 9999) (hv : d ≤ daysInMonth y m) :
    try_Ymd (render4 m d y).data = some ⟨y, m, d⟩ := by
  have hds : (render4 m d y).data
      = digitChar (y / 1000) :: digitChar (y / 100 % 10) ::
        digitChar (y / 10 % 10) :: digitChar (y % 10) :: '/' ::
        digitChar (m / 10) :: digitChar (m % 10) :: '/' ::
        digitChar (d / 10) :: digitChar (d % 10) :: [] := by
    simp [render4, pad2, digits4]
  have hrx : rx_Ymd (render4 m d y).data = some ((y, m, d), []) := by
    rw [rx_Ymd, hds, parseY4_cons hy2]
    simp only [Option.some_bind]
    refine firstSome_head_some (monthCands_cons hm1 hm2 _) ?_
    simp only []
    exact firstSome_head_some (dayCands_cons hd1 hd2 _) rfl
  rw [try_Ymd, hrx]
  exact mkDatetime_pos (by omega) hy2 hm1 hm2 hd1 hv

theorem try_mdY_render5 {m d y : Nat} (hd1 : 1 ≤ d) (hd2 : d ≤ 31) (hy2 : y ≤ 9999) :
    try_mdY (render5 m d y).data = none := by
  have hds : (render5 m d y).data
      = digitChar (d / 10) :: digitChar (d % 10) :: '-' ::
        digitChar (m / 10) :: digitChar (m % 10) :: '-' ::
        digitChar (y / 1000) :: digitChar (y / 100 % 10) ::
        digitChar (y / 10 % 10) :: digitChar (y % 10) :: [] := by
    simp [render5, pad2, digits4]
  have hrx : rx_mdY (render5 m d y).data = none := by
    rw [rx_mdY, hds]
    apply firstSome_map_none
    intro p hp
    rcases monthCands_shape hp with h | h
    · rw [h]
      simp [digitChar_ne_slash (show d % 10 ≤ 9 by omega)]
    · rw [h]
      simp
  simp [try_mdY, hrx]

theorem try_Ymd_render5 {m d y : Nat} (hd1 : 1 ≤ d) (hd2 : d ≤ 31) :
    try_Ymd (render5 m d y).data = none := by
  have hds : (render5 m d y).data
      = digitChar (d / 10) :: digitChar (d % 10) :: '-' ::
        digitChar (m / 10) :: digitChar (m % 10) :: '-' ::
        digitChar (y / 1000) :: digitChar (y / 100 % 10) ::
        digitChar (y / 10 % 10) :: digitChar (y % 10) :: [] := by
    simp [render5, pad2, digits4]
  have hrx : rx_Ymd (render5 m d y).data = none := by
    rw [rx_Ymd, hds]
    have h4 : parseY4 (digitChar (d / 10) :: digitChar (d % 10) :: '-' ::
        digitChar (m / 10) :: digitChar (m % 10) :: '-' ::
        digitChar (y / 1000) :: digitChar (y / 100 % 10) ::
        digitChar (y / 10 % 10) :: digitChar (y % 10) :: []) = none := by
      simp +decide [parseY4]
    rw [h4]
    rfl
  simp [try_Ymd, hrx]

theorem try_dmY_render5 {m d y : Nat} (hm1 : 1 ≤ m) (hm2 : m ≤ 12) (hd1 : 1 ≤ d)
    (hd2 : d ≤ 31) (hy1 : 1000 ≤ y) (hy2 : y ≤ 9999) (hv : d ≤ daysInMonth y m) :
    try_dmY (render5 m d y).data = some ⟨y, m, d⟩ := by
  have hds : (render5 m d y).data
      = digitChar (d / 10) :: digitChar (d % 10) :: '-' ::
        digitChar (m / 10) :: digitChar (m % 10) :: '-' ::
        digitChar (y / 1000) :: digitChar (y / 100 % 10) ::
        digitChar (y / 10 % 10) :: digitChar (y % 10) :: [] := by
    simp [render5, pad2, digits4]
  have hrx : rx_dmY (render5 m d y).data = some ((y, m, d), []) := by
    rw [rx_dmY, hds]
    refine firstSome_head_some (dayCands_cons hd1 hd2 _) ?_
    simp only []
    refine firstSome_head_some (monthCands_cons hm1 hm2 _) ?_
    simp [parseY4_cons hy2]
  rw [try_dmY, hrx]
  exact mkDatetime_pos (by omega) hy2 hm1 hm2 hd1 hv

theorem try_Ymd_render6 {m d y : Nat} (hy2 : y ≤ 9999) :
    try_Ymd (render6 m d y).data = none := by
  have hds : (render6 m d y).data
      = digitChar (y / 1000) :: digitChar (y / 100 % 10) ::
        digitChar (y / 10 % 10) :: digitChar (y % 10) :: '-' ::
        digitChar (m / 10) :: digitChar (m % 10) :: '-' ::
        digitChar (d / 10) :: digitChar (d % 10) :: [] := by
    simp [render6, pad2, digits4]
  have hrx : rx_Ymd (render6 m d y).data = none := by
    rw [rx_Ymd, hds, parseY4_cons hy2]
    simp
  simp [try_Ymd, hrx]

theorem try_dmY_render6 {m d y : Nat} (hy2 : y ≤ 9999) :
    try_dmY (render6 m d y).data = none := by
  have hds : (render6 m d y).data
      = digitChar (y / 1000) :: digitChar (y / 100 % 10) ::
        digitChar (y / 10 % 10) :: digitChar (y % 10) :: '-' ::
        digitChar (m / 10) :: digitChar (m % 10) :: '-' ::
        digitChar (d / 10) :: digitChar (d % 10) :: [] := by
    simp [render6, pad2, digits4]
  have hrx : rx_dmY (render6 m d y).data = none := by
    rw [rx_dmY, hds]
    apply firstSome_map_none
    intro p hp
    rcases dayCands_shape hp with h | h
    · rw [h]
      simp [digitChar_ne_dash (show y / 100 % 10 ≤ 9 by omega)]
    · rw [h]
      simp [digitChar_ne_dash (show y / 10 % 10 ≤ 9 by omega)]
  simp [try_dmY, hrx]

theorem try_Ymd2_render6 {m d y : Nat} (hm1 : 1 ≤ m) (hm2 : m ≤ 12) (hd1 : 1 ≤ d)
    (hd2 : d ≤ 31) (hy1 : 1000 ≤ y) (hy2 : y ≤ 9999) (hv : d ≤ daysInMonth y m) :
    try_Ymd2 (render6 m d y).data = some ⟨y, m, d⟩ := by
  have hds : (render6 m d y).data
      = digitChar (y / 1000) :: digitChar (y / 100 % 10) ::
        digitChar (y / 10 % 10) :: digitChar (y % 10) :: '-' ::
        digitChar (m / 10) :: digitChar (m % 10) :: '-' ::
        digitChar (d / 10) :: digitChar (d % 10) :: [] := by
    simp [render6, pad2, digits4]
  have hrx : rx_Ymd2 (render6 m d y).data = some ((y, m, d), []) := by
    rw [rx_Ymd2, hds, parseY4_cons hy2]
    simp only [Option.some_bind]
    refine firstSome_head_some (monthCands_cons hm1 hm2 _) ?_
    simp only []
    exact firstSome_head_some (dayCands_cons hd1 hd2 _) rfl
  rw [try_Ymd2, hrx]
  exact mkDatetime_pos (by omega) hy2 hm1 hm2 hd1 hv

/-! ## labelOf on each rendered format -/

theorem labelOf_render1 {m d y : Nat} (hm1 : 1 ≤ m) (hm2 : m ≤ 12) (hy1 : 1000 ≤ y)
    (hy2 : y ≤ 9999) (hd1 : 1 ≤ d) (hv : d ≤ daysInMonth y m) :
    labelOf (render1 m d y) = some (expectedLabel m y) := by
  have hd2 : d ≤ 31 := le_trans hv daysInMonth_le
  rw [labelOf, parse_date, try_BdY_render1 hm1 hm2 hd1 hd2 hy1 hy2 hv]
  simp [firstSome, fmtBy, expectedLabel]

theorem labelOf_render3 {m d y : Nat} (hm1 : 1 ≤ m) (hm2 : m ≤ 12) (hy1 : 1000 ≤ y)
    (hy2 : y ≤ 9999) (hd1 : 1 ≤ d) (hv : d ≤ daysInMonth y m) :
    labelOf (render3 m d y) = some (expectedLabel m y) := by
  have hd2 : d ≤ 31 := le_trans hv daysInMonth_le
  have hds : (render3 m d y).data
      = digitChar (m / 10) :: (digitChar (m % 10) :: '/' ::
        digitChar (d / 10) :: digitChar (d % 10) :: '/' ::
        digitChar (y / 1000) :: digitChar (y / 100 % 10) ::
        digitChar (y / 10 % 10) :: digitChar (y % 10) :: []) := by
    simp [render3, pad2, digits4]
  have h1 : try_BdY (render3 m d y).data = none := by
    rw [hds]; exact try_BdY_digit (by omega) _
  have h2 : try_Bd (render3 m d y).data = none := by
    rw [hds]; exact try_Bd_digit (by omega) _
  rw [labelOf, parse_date, h1, h2, try_mdY_render3 hm1 hm2 hd1 hd2 hy1 hy2 hv]
  simp [firstSome, fmtBy, expectedLabel]

theorem labelOf_render4 {m d y : Nat} (hm1 : 1 ≤ m) (hm2 : m ≤ 12) (hy1 : 1000 ≤ y)
    (hy2 : y ≤ 9999) (hd1 : 1 ≤ d) (hv : d ≤ daysInMonth y m) :
    labelOf (render4 m d y) = some (expectedLabel m y) := by
  have hd2 : d ≤ 31 := le_trans hv daysInMonth_le
  have hds : (render4 m d y).data
      = digitChar (y / 1000) :: (digitChar (y / 100 % 10) ::
        digitChar (y / 10 % 10) :: digitChar (y % 10) :: '/' ::
        digitChar (m / 10) :: digitChar (m % 10) :: '/' ::
        digitChar (d / 10) :: digitChar (d % 10) :: []) := by
    simp [render4, pad2, digits4]
  have h1 : try_BdY (render4 m d y).data = none := by
    rw [hds]; exact try_BdY_digit (by omega) _
  have h2 : try_Bd (render4 m d y).data = none := by
    rw [hds]; exact try_Bd_digit (by omega) _
  have h3 : try_mdY (render4 m d y).data = none := by
    rw [hds]; exact try_mdY_digits4 hy2 _
  rw [labelOf, parse_date, h1, h2, h3, try_Ymd_render4 hm1 hm2 hd1 hd2 hy1 hy2 hv]
  simp [firstSome, fmtBy, expectedLabel]

theorem labelOf_render5 {m d y : Nat} (hm1 : 1 ≤ m) (hm2 : m ≤ 12) (hy1 : 1000 ≤ y)
    (hy2 : y ≤ 9999) (hd1 : 1 ≤ d) (hv : d ≤ daysInMonth y m) :
    labelOf (render5 m d y) = some (expectedLabel m y) := by
  have hd2 : d ≤ 31 := le_trans hv daysInMonth_le
  have hds : (render5 m d y).data
      = digitChar (d / 10) :: (digitChar (d % 10) :: '-' ::
        digitChar (m / 10) :: digitChar (m % 10) :: '-' ::
        digitChar (y / 1000) :: digitChar (y / 100 % 10) ::
        digitChar (y / 10 % 10) :: digitChar (y % 10) :: []) := by
    simp [render5, pad2, digits4]
  have h1 : try_BdY (render5 m d y).data = none := by
    rw [hds]; exact try_BdY_digit (by omega) _
  have h2 : try_Bd (render5 m d y).data = none := by
    rw [hds]; exact try_Bd_digit (by omega) _
  rw [labelOf, parse_date, h1, h2, try_mdY_render5 hd1 hd2 hy2,
    try_Ymd_render5 hd1 hd2, try_dmY_render5 hm1 hm2 hd1 hd2 hy1 hy2 hv]
  simp [firstSome, fmtBy, expectedLabel]

theorem labelOf_render6 {m d y : Nat} (hm1 : 1 ≤ m) (hm2 : m ≤ 12) (hy1 : 1000 ≤ y)
    (hy2 : y ≤ 9999) (hd1 : 1 ≤ d) (hv : d ≤ daysInMonth y m) :
    labelOf (render6 m d y) = some (expectedLabel m y) := by
  have hd2 : d ≤ 31 := le_trans hv daysInMonth_le
  have hds : (render6 m d y).data
      = digitChar (y / 1000) :: (digitChar (y / 100 % 10) ::
        digitChar (y / 10 % 10) :: digitChar (y % 10) :: '-' ::
        digitChar (m / 10) :: digitChar (m % 10) :: '-' ::
        digitChar (d / 10) :: digitChar (d % 10) :: []) := by
    simp [render6, pad2, digits4]
  have h1 : try_BdY (render6 m d y).data = none := by
    rw [hds]; exact try_BdY_digit (by omega) _
  have h2 : try_Bd (render6 m d y).data = none := by
    rw [hds]; exact try_Bd_digit (by omega) _
  have h3 : try_mdY (render6 m d y).data = none := by
    rw [hds]; exact try_mdY_digits4 hy2 _
  rw [labelOf, parse_date, h1, h2, h3, try_Ymd_render6 hy2,
    try_dmY_render6 hy2, try_Ymd2_render6 hm1 hm2 hd1 hd2 hy1 hy2 hv]
  simp [firstSome, fmtBy, expectedLabel]

theorem append_dash_pad0 (s : String) : s ++ "-" ++ pad2Str 0 = s ++ "-00" := by
  apply String.ext
  simp [String.data_append, pad2Str, pad2, digitChar]

theorem labelOf_render2 {m d y : Nat} (hm1 : 1 ≤ m) (hm2 : m ≤ 12) (hd1 : 1 ≤ d)
    (hv : d ≤ daysInMonth y m) :
    labelOf (render2 m d)
      = some (if m = 2 ∧ d = 29 then "February-24" else monthNameStr m ++ "-00") := by
  have hd2 : d ≤ 31 := le_trans hv daysInMonth_le
  by_cases hc : m = 2 ∧ d = 29
  · rw [if_pos hc]
    obtain ⟨hm, hd⟩ := hc
    subst hm
    subst hd
    decide
  · rw [if_neg hc]
    have h1 := try_BdY_render2 hm1 hm2 hd1 hd2
    have hday1900 : d ≤ daysInMonth 1900 m := by
      by_cases hm : m = 2
      · subst hm
        have hy2 : daysInMonth y 2 ≤ 29 := by
          rw [daysInMonth, if_pos rfl]
          split <;> omega
        have hne : d ≠ 29 := fun h => hc ⟨rfl, h⟩
        have h28 : daysInMonth 1900 2 = 28 := by decide
        omega
      · have heq : daysInMonth 1900 m = daysInMonth y m := by
          rw [daysInMonth, daysInMonth, if_neg hm, if_neg hm]
        omega
    have h2 : try_Bd (render2 m d).data = some ⟨1900, m, d⟩ := by
      rw [try_Bd_render2 hm1 hm2 hd1 hd2]
      exact mkDatetime_pos (by omega) (by omega) hm1 hm2 hd1 hday1900
    rw [labelOf, parse_date, h1, h2]
    show some (monthNameStr m ++ "-" ++ pad2Str (1900 % 100)) = some (monthNameStr m ++ "-00")
    rw [show (1900 : Nat) % 100 = 0 from rfl, append_dash_pad0]

/-- C2, counterexample: the six-format round trip fails as stated for the
year-free format.  The triple (7, 20, 2024) rendered with strftime
format B-d is the string July 20; the spec requires the label July-24 for
the month and year of the triple, but the normalizer parses the string with
strptime format B-d, whose year defaults to 1900, so the label is July-00. -/
theorem C2_counterexample :
    render2 7 20 = "July 20"
    ∧ expectedLabel 7 2024 = "July-24"
    ∧ labelOf (render2 7 20) = some "July-00"
    ∧ ("July-00" : String) ≠ "July-24" := by
  refine ⟨?_, ?_, ?_, ?_⟩ <;> decide

/-- C2, amended: for every valid (month, day, year) triple with a four-digit
year, a date string constructed in any of the five year-carrying fixed
formats parses back to exactly FullMonthName-two-digit-year of the triple;
the year-free format B-d instead yields the month with year 00 (strptime
defaults the year to 1900), except February 29, which is invalid in 1900
and falls through to the regex fallback with its default year 2024,
yielding February-24. -/
theorem C2_amended_roundtrip (m d y : Nat) (hm1 : 1 ≤ m) (hm2 : m ≤ 12)
    (hy1 : 1000 ≤ y) (hy2 : y ≤ 9999) (hd1 : 1 ≤ d) (hv : d ≤ daysInMonth y m) :
    labelOf (render1 m d y) = some (expectedLabel m y)
    ∧ labelOf (render3 m d y) = some (expectedLabel m y)
    ∧ labelOf (render4 m d y) = some (expectedLabel m y)
    ∧ labelOf (render5 m d y) = some (expectedLabel m y)
    ∧ labelOf (render6 m d y) = some (expectedLabel m y)
    ∧ labelOf (render2 m d)
        = some (if m = 2 ∧ d = 29 then "February-24" else monthNameStr m ++ "-00") :=
  ⟨labelOf_render1 hm1 hm2 hy1 hy2 hd1 hv,
   labelOf_render3 hm1 hm2 hy1 hy2 hd1 hv,
   labelOf_render4 hm1 hm2 hy1 hy2 hd1 hv,
   labelOf_render5 hm1 hm2 hy1 hy2 hd1 hv,
   labelOf_render6 hm1 hm2 hy1 hy2 hd1 hv,
   labelOf_render2 hm1 hm2 hd1 hv⟩

/-- C2, witness: the amended round trip at the concrete triple (7, 20, 2024). -/
theorem C2_amended_roundtrip_witness :
    labelOf (render1 7 20 2024) = some (expectedLabel 7 2024)
    ∧ labelOf (render3 7 20 2024) = some (expectedLabel 7 2024)
    ∧ labelOf (render4 7 20 2024) = some (expectedLabel 7 2024)
    ∧ labelOf (render5 7 20 2024) = some (expectedLabel 7 2024)
    ∧ labelOf (render6 7 20 2024) = some (expectedLabel 7 2024)
    ∧ labelOf (render2 7 20)
        = some (if 7 = 2 ∧ 20 = 29 then "February-24" else monthNameStr 7 ++ "-00") :=
  C2_amended_roundtrip 7 20 2024 (by decide) (by decide) (by decide) (by decide)
    (by decide) (by decide)

/-! ## Scanner step lemmas -/

theorem startsPeak_ne_tp {c : String} (h : strStartsWith c peakLabel = true) :
    c ≠ "Time Period" := by
  intro hc
  subst hc
  revert h
  decide

theorem startsPeak_ne_empty {c : String} (h : strStartsWith c peakLabel = true) :
    c ≠ "" := by
  intro hc
  subst hc
  revert h
  decide

theorem scan_short {s : ScanState} {r : List (List String)} {row : List String}
    (hseek : s.seeking = false) (hrow : row.length ≤ 1) :
    scanRows s (row :: r) = scanRows s r := by
  match row with
  | [] => rw [scanRows, if_neg (by simp [hseek])]
  | [c] => rw [scanRows, if_neg (by simp [hseek])]
  | a :: b :: t => simp at hrow

theorem scan_inert {s : ScanState} {r : List (List String)} {row : List String}
    (hseek : s.seeking = false) (hrow : isMarkerRow row = false) :
    scanRows s (row :: r) = scanRows s r := by
  match row with
  | [] => rw [scanRows, if_neg (by simp [hseek])]
  | [c] => rw [scanRows, if_neg (by simp [hseek])]
  | a :: b :: t =>
    simp only [isMarkerRow, Bool.or_eq_false_iff, decide_eq_false_iff_not] at hrow
    rw [scanRows, if_neg (by simp [hseek])]
    simp [hrow.1.1, hrow.1.2, hrow.2]

theorem scan_inert_list {s : ScanState} {r : List (List String)} {J : List (List String)}
    (hseek : s.seeking = false) (hJ : ∀ row ∈ J, isMarkerRow row = false) :
    scanRows s (J ++ r) = scanRows s r := by
  induction J with
  | nil => rfl
  | cons j t ih =>
    rw [List.cons_append, scan_inert hseek (hJ j (by simp))]
    exact ih fun row hr => hJ row (by simp [hr])

theorem scan_inert_end {s : ScanState} {J : List (List String)}
    (hseek : s.seeking = false) (hJ : ∀ row ∈ J, isMarkerRow row = false) :
    scanRows s J = s := by
  have h := @scan_inert_list s [] J hseek hJ
  rw [List.append_nil] at h
  rw [h, scanRows]

theorem scan_tp {s : ScanState} {r : List (List String)} {ds : String} {t : List String}
    {dt : Date} (hseek : s.seeking = false) (hds : parse_date ds = some dt) :
    scanRows s (("Time Period" :: ds :: t) :: r)
      = scanRows ⟨s.peak, s.portal, some (fmtBy dt), s.seeking⟩ r := by
  rw [scanRows, if_neg (by simp [hseek])]
  simp [hds]

theorem scan_pk {s : ScanState} {r : List (List String)} {pl cnt : String}
    {t : List String} (hseek : s.seeking = false)
    (hpl : strStartsWith pl peakLabel = true) :
    scanRows s ((pl :: cnt :: t) :: r)
      = scanRows ⟨some cnt, s.portal, s.date, s.seeking⟩ r := by
  rw [scanRows, if_neg (by simp [hseek])]
  simp [startsPeak_ne_tp hpl, hpl]

theorem scan_ep {s : ScanState} {r : List (List String)} {x : String} {t : List String}
    (hseek : s.seeking = false) :
    scanRows s (("Experience Portal" :: x :: t) :: r)
      = scanRows ⟨s.peak, none, s.date, true⟩ r := by
  rw [scanRows, if_neg (by simp [hseek])]
  simp [(by decide : ¬("Experience Portal" = "Time Period")),
    (by decide : strStartsWith "Experience Portal" peakLabel = false)]

theorem scan_seek_skip {s : ScanState} {r : List (List String)} {j : List String}
    (hseek : s.seeking = true) (hj : j = [] ∨ ∃ t, j = "" :: t) :
    scanRows s (j :: r) = scanRows s r := by
  rcases hj with hj | ⟨t, hj⟩ <;> subst hj
  · rw [scanRows, if_pos hseek]
  · rw [scanRows, if_pos hseek]
    simp

theorem scan_seek_list {s : ScanState} {r : List (List String)} {J : List (List String)}
    (hseek : s.seeking = true) (hJ : ∀ j ∈ J, j = [] ∨ ∃ t, j = "" :: t) :
    scanRows s (J ++ r) = scanRows s r := by
  induction J with
  | nil => rfl
  | cons j t ih =>
    rw [List.cons_append, scan_seek_skip hseek (hJ j (by simp))]
    exact ih fun row hr => hJ row (by simp [hr])

theorem scan_seek_found {s : ScanState} {r : List (List String)} {c : String}
    {t : List String} (hseek : s.seeking = true) (hc : c ≠ "") :
    scanRows s ((c :: t) :: r) = scanRows ⟨s.peak, some c, s.date, false⟩ r := by
  rw [scanRows, if_pos hseek]
  simp [hc]

theorem fmtBy_ne_empty (dt : Date) : fmtBy dt ≠ "" := by
  intro h
  have hd := congrArg String.data h
  simp [fmtBy, String.data_append, pad2Str, pad2] at hd

/-- C9: a row with fewer than two cells is never considered by the marker
tests of the scanner loop: outside portal-seeking mode, scanning such a row
leaves the scan state exactly as scanning without it, whatever its first
cell is.  In particular an Experience Portal line with no trailing comma,
parsed as a one-cell row, never triggers portal extraction. -/
theorem C9_short_rows_ignored (s : ScanState) (row : List String)
    (rest : List (List String)) (hseek : s.seeking = false)
    (hrow : row.length ≤ 1) :
    scanRows s (row :: rest) = scanRows s rest :=
  scan_short hseek hrow

/-- C9, witness: the short-row lemma at a concrete Experience Portal row
with no second cell. -/
theorem C9_short_rows_ignored_witness :
    scanRows ⟨none, none, none, false⟩
        (["Experience Portal"] :: [["PortalA", "1"]])
      = scanRows ⟨none, none, none, false⟩ [["PortalA", "1"]] :=
  C9_short_rows_ignored ⟨none, none, none, false⟩ ["Experience Portal"]
    [["PortalA", "1"]] (by decide) (by decide)

/-- C10: rows consumed by the portal forward-scan never reach the marker
tests of the outer loop.  After an Experience Portal marker row, the scan
skips rows with no non-empty first cell and takes the first cell of the next
row with a non-empty first cell as the portal value, even when that first
cell is the Time Period label or starts with the Peak Contacts label; the
scan then continues after that row with only the portal changed, so the
second cell of the consumed row is never parsed as a date nor captured as a
count. -/
theorem C10_portal_consumption (s : ScanState) (x c v : String)
    (xs vs : List String) (skipped rest : List (List String))
    (hseek : s.seeking = false)
    (hskip : ∀ j ∈ skipped, j = [] ∨ ∃ t, j = "" :: t)
    (hc : c = "Time Period" ∨ strStartsWith c peakLabel = true) :
    scanRows s (("Experience Portal" :: x :: xs) :: (skipped ++ (c :: v :: vs) :: rest))
      = scanRows ⟨s.peak, some c, s.date, false⟩ rest := by
  have hcne : c ≠ "" := by
    rcases hc with hc | hc
    · subst hc; decide
    · exact startsPeak_ne_empty hc
  rw [scan_ep hseek, scan_seek_list rfl hskip, scan_seek_found rfl hcne]

/-- C10, witness: after the portal marker, a Time Period row is consumed as
the portal value and its date cell is never parsed. -/
theorem C10_portal_consumption_witness :
    scanRows ⟨none, none, none, false⟩
        (["Experience Portal", ""] :: ([[""]] ++ [["Time Period", "July 20, 2024"]] ++ []))
      = scanRows ⟨none, some "Time Period", none, false⟩ [] :=
  C10_portal_consumption ⟨none, none, none, false⟩ "" "Time Period" "July 20, 2024"
    [] [] [[""]] [] (by decide) (by intro j hj; simp at hj; exact Or.inr ⟨[], by simp [hj]⟩)
    (Or.inl rfl)

/-- C3, counterexample: the scanner does not return the literal second cell
of the Time Period row.  On rows whose Time Period cell is July 20, 2024 the
returned record carries the normalized label July-24, not the literal
string. -/
theorem C3_counterexample :
    process_csv_file c3rows = some ("July-24", "PortalA", "42")
    ∧ ("July-24" : String) ≠ "July 20, 2024" := by
  refine ⟨?_, ?_⟩ <;> decide

/-- C3, amended: for every well-formed row sequence, junk rows containing
no marker row around a Time Period row with a parseable date, a Peak
Contacts row with a non-empty count cell, and an Experience Portal marker
followed by rows with no non-empty first cell and then a portal row with a
non-empty first cell, the scanner returns the record whose count is the
exact literal second cell of the Peak Contacts row and whose portal is the
exact literal first cell of the portal row, while the date field is the
normalized FullMonthName-two-digit-year label of the parsed Time Period
cell, not its literal string. -/
theorem C3_amended_scanner (A B C E skipped : List (List String))
    (ds cnt pl p x : String) (t1 t2 t3 t4 : List String) (dt : Date)
    (hA : ∀ r ∈ A, isMarkerRow r = false) (hB : ∀ r ∈ B, isMarkerRow r = false)
    (hC : ∀ r ∈ C, isMarkerRow r = false) (hE : ∀ r ∈ E, isMarkerRow r = false)
    (hskip : ∀ j ∈ skipped, j = [] ∨ ∃ t, j = "" :: t)
    (hpl : strStartsWith pl peakLabel = true)
    (hds : parse_date ds = some dt) (hcnt : cnt ≠ "") (hp : p ≠ "") :
    process_csv_file (A ++ ("Time Period" :: ds :: t1) :: (B ++ (pl :: cnt :: t2) ::
        (C ++ ("Experience Portal" :: x :: t3) :: (skipped ++ (p :: t4) :: E))))
      = some (fmtBy dt, p, cnt) := by
  rw [process_csv_file]
  rw [scan_inert_list rfl hA, scan_tp rfl hds, scan_inert_list rfl hB,
    scan_pk rfl hpl, scan_inert_list rfl hC, scan_ep rfl,
    scan_seek_list rfl hskip, scan_seek_found rfl hp,
    scan_inert_end rfl hE]
  simp [hp, hcnt, fmtBy_ne_empty dt]

/-- C3, witness: the amended scanner contract at a concrete four-row file. -/
theorem C3_amended_scanner_witness :
    process_csv_file c3rows = some ("July-24", "PortalA", "42") := by
  have h := C3_amended_scanner [] [] [] [] [] "July 20, 2024" "42"
    "Peak Contacts (rows)" "PortalA" "" [] [] [] [] ⟨2024, 7, 20⟩
    (by simp) (by simp) (by simp) (by simp) (by simp)
    (by decide) (by decide) (by decide) (by decide)
  simpa using h

/-! ## Orchestrator lemmas -/

theorem scanFiles_skip {rows : List (List String)}
    (hnone : process_csv_file rows = none) :
    ∀ (pre post : List (String × List (List String))) (nm : String)
      (acc : List (String × List (String × String))) (latest : Option String),
      scanFiles acc latest (pre ++ (nm, rows) :: post)
        = scanFiles acc latest (pre ++ post) := by
  intro pre
  induction pre with
  | nil =>
    intro post nm acc latest
    simp [scanFiles, hnone]
  | cons f t ih =>
    intro post nm acc latest
    rw [List.cons_append, List.cons_append, scanFiles, scanFiles]
    cases hp : process_csv_file f.2 <;> simp [ih]

/-- C4: whenever any of the three required values (portal, count, date) is
missing, in the truthiness sense of the source, after scanning all rows of a
file, the scanner returns no record, the condition is logged at warning
level (the error level is only used elsewhere), and the file contributes
nothing: the groups, the latest label and the written files of a run
containing the file equal those of the run without it. -/
theorem C4_missing_values (rows : List (List String))
    (h : truthy (scanRows ⟨none, none, none, false⟩ rows).portal = false
       ∨ truthy (scanRows ⟨none, none, none, false⟩ rows).peak = false
       ∨ truthy (scanRows ⟨none, none, none, false⟩ rows).date = false) :
    process_csv_file rows = none
    ∧ processLevel rows = Level.warning
    ∧ ∀ (pre post : List (String × List (List String))) (nm : String),
        groupsOf (pre ++ (nm, rows) :: post) = groupsOf (pre ++ post)
        ∧ latestOf (pre ++ (nm, rows) :: post) = latestOf (pre ++ post)
        ∧ (mainRun (pre ++ (nm, rows) :: post)).writes
            = (mainRun (pre ++ post)).writes := by
  have hnone : process_csv_file rows = none := by
    rw [process_csv_file]
    rcases hst : scanRows ⟨none, none, none, false⟩ rows with ⟨pk, po, da, sk⟩
    rw [hst] at h
    rcases pk with _ | pk <;> rcases po with _ | po <;> rcases da with _ | da <;>
      (simp_all [truthy]; try tauto)
  refine ⟨hnone, by simp [processLevel, hnone], fun pre post nm => ⟨?_, ?_, ?_⟩⟩
  · rw [groupsOf, groupsOf, scanFiles_skip hnone pre post nm]
  · rw [latestOf, latestOf, scanFiles_skip hnone pre post nm]
  · simp only [mainRun]
    rw [scanFiles_skip hnone pre post nm]
    by_cases hc : (scanFiles [] none (pre ++ post)).1.isEmpty <;> simp [hc]

/-- C4, witness: a file with no Time Period row yields no record, a warning
level log, and no effect on the written files. -/
theorem C4_missing_values_witness :
    process_csv_file c4rows = none
    ∧ processLevel c4rows = Level.warning
    ∧ groupsOf ([] ++ ("f.csv", c4rows) :: []) = groupsOf ([] ++ [])
    ∧ (mainRun ([] ++ ("f.csv", c4rows) :: [])).writes
        = (mainRun ([] ++ [])).writes := by
  have h := C4_missing_values c4rows (by decide)
  exact ⟨h.1, h.2.1, (h.2.2 [] [] "f.csv").1, (h.2.2 [] [] "f.csv").2.2⟩

theorem groupLookup_addEntry (acc : List (String × List (String × String)))
    (d k : String) (v : String × String) :
    groupLookup (addEntry acc d v) k
      = if k = d then groupLookup acc k ++ [v] else groupLookup acc k := by
  induction acc with
  | nil =>
    by_cases hk : k = d
    · subst hk
      simp [addEntry, groupLookup, List.lookup]
    · have hb : (k == d) = false := beq_eq_false_iff_ne.mpr hk
      simp [addEntry, groupLookup, List.lookup, hk, hb]
  | cons e t ih =>
    rcases e with ⟨ek, ev⟩
    by_cases he : ek = d
    · subst he
      by_cases hk : k = ek
      · subst hk
        simp [addEntry, groupLookup, List.lookup]
      · have hb : (k == ek) = false := beq_eq_false_iff_ne.mpr hk
        simp [addEntry, groupLookup, List.lookup, hk, hb]
    · by_cases hk : k = ek
      · subst hk
        have hkd : ¬k = d := he
        simp [addEntry, groupLookup, List.lookup, he, hkd]
      · have hb : (k == ek) = false := beq_eq_false_iff_ne.mpr hk
        simp [addEntry, groupLookup, List.lookup, he, hb]
        exact ih

theorem scanFiles_group :
    ∀ (files : List (String × List (List String)))
      (acc : List (String × List (String × String))) (latest : Option String)
      (lbl : String),
      groupLookup (scanFiles acc latest files).1 lbl
        = groupLookup acc lbl ++ orderedOf files lbl := by
  intro files
  induction files with
  | nil =>
    intro acc latest lbl
    simp [scanFiles, orderedOf, successesOf]
  | cons f fs ih =>
    intro acc latest lbl
    rw [scanFiles]
    cases hp : process_csv_file f.2 with
    | none =>
      rw [ih]
      simp [orderedOf, successesOf, hp]
    | some r =>
      rw [ih, groupLookup_addEntry]
      by_cases hl : lbl = r.1
      · subst hl
        simp [orderedOf, successesOf, hp, List.filterMap_cons]
      · have hr : ¬r.1 = lbl := fun h => hl h.symm
        simp [orderedOf, successesOf, hp, hl, hr, List.filterMap_cons]

theorem lookup_mem {l : List (String × List (String × String))} {k : String}
    {v : List (String × String)} (h : List.lookup k l = some v) : (k, v) ∈ l := by
  induction l with
  | nil => simp [List.lookup] at h
  | cons e t ih =>
    rcases e with ⟨ek, ev⟩
    rw [List.lookup] at h
    cases hbe : (k == ek) with
    | false =>
      rw [hbe] at h
      exact List.mem_cons_of_mem _ (ih h)
    | true =>
      rw [hbe] at h
      have hk : k = ek := by simpa using hbe
      have hv : ev = v := by simpa using h
      subst hk
      subst hv
      exact List.mem_cons_self _ _

/-- C6: grouping preserves file-encounter order.  For every list of files
and every period label, the entries of that label in the built groups are
exactly the (portal, count) pairs of the successful records carrying that
label, in file-scan order (so two files with the same label contribute two
entries in scan order); and when the group is non-empty, the run writes the
report page of that label rendered from exactly that entry list. -/
theorem C6_grouping_order (files : List (String × List (List String))) (lbl : String) :
    groupOf files lbl = orderedOf files lbl
    ∧ (groupOf files lbl ≠ [] →
        (reportName lbl, generate_html_report lbl (groupOf files lbl) false)
          ∈ (mainRun files).writes) := by
  have hg : groupOf files lbl = orderedOf files lbl := by
    rw [groupOf, groupsOf, scanFiles_group]
    simp [groupLookup, List.lookup]
  refine ⟨hg, fun hne => ?_⟩
  rcases hlk : List.lookup lbl (groupsOf files) with _ | v
  · exfalso
    apply hne
    rw [groupOf, groupLookup, hlk]
    rfl
  · have hv : groupOf files lbl = v := by
      rw [groupOf, groupLookup, hlk]
      rfl
    have hmem : (lbl, v) ∈ groupsOf files := lookup_mem hlk
    have hne2 : (groupsOf files).isEmpty = false := by
      cases hgof : groupsOf files with
      | nil => rw [hgof] at hmem; simp at hmem
      | cons a t => simp [hgof]
    rw [groupsOf] at hne2 hmem
    rw [hv]
    simp only [mainRun, hne2, Bool.false_eq_true, if_false]
    refine List.mem_append_left _ (List.mem_append_left _ (List.mem_append_left _ ?_))
    exact List.mem_map.mpr ⟨(lbl, v), hmem, rfl⟩

/-- C6, witness: two files with the same period label July-24 appear as two
entries of that label in scan order, and the written report renders both. -/
theorem C6_grouping_order_witness :
    groupOf c6files "July-24" = [("PortalA", "7"), ("PortalB", "9")]
    ∧ (reportName "July-24",
        generate_html_report "July-24" [("PortalA", "7"), ("PortalB", "9")] false)
        ∈ (mainRun c6files).writes := by
  have h := C6_grouping_order c6files "July-24"
  have hg : groupOf c6files "July-24" = [("PortalA", "7"), ("PortalB", "9")] := by decide
  refine ⟨hg, ?_⟩
  rw [← hg]
  exact h.2 (by rw [hg]; simp)

/-! ## The Python string order -/

theorem charToNat_inj {a b : Char} (h : a.toNat = b.toNat) : a = b := by
  rw [← Char.ofNat_toNat a, ← Char.ofNat_toNat b, h]

theorem pyLtChars_irrefl (l : List Char) : pyLtChars l l = false := by
  induction l with
  | nil => rfl
  | cons a t ih => simp [pyLtChars, ih]

theorem pyLtChars_trans {a b c : List Char} (h1 : pyLtChars a b = true)
    (h2 : pyLtChars b c = true) : pyLtChars a c = true := by
  induction a generalizing b c with
  | nil =>
    cases c with
    | nil =>
      cases b with
      | nil => simp [pyLtChars] at h2
      | cons b0 bs => simp [pyLtChars] at h2
    | cons c0 cs => rfl
  | cons a0 as ih =>
    cases b with
    | nil => simp [pyLtChars] at h1
    | cons b0 bs =>
      cases c with
      | nil => simp [pyLtChars] at h2
      | cons c0 cs =>
        rw [pyLtChars] at h1 h2 ⊢
        by_cases hab : a0 = b0
        · subst hab
          rw [if_pos rfl] at h1
          by_cases hbc : a0 = c0
          · subst hbc
            rw [if_pos rfl] at h2 ⊢
            exact ih h1 h2
          · rw [if_neg hbc] at h2 ⊢
            exact h2
        · rw [if_neg hab] at h1
          by_cases hbc : b0 = c0
          · subst hbc
            rw [if_neg hab]
            exact h1
          · rw [if_neg hbc] at h2
            have l1 : a0.toNat < b0.toNat := by simpa using h1
            have l2 : b0.toNat < c0.toNat := by simpa using h2
            have hac : ¬a0 = c0 := by
              intro he
              subst he
              omega
            rw [if_neg hac]
            simp
            omega

theorem pyLtChars_tricho {a b : List Char} (h : pyLtChars a b = false) :
    pyLtChars b a = true ∨ a = b := by
  induction a generalizing b with
  | nil =>
    cases b with
    | nil => right; rfl
    | cons b0 bs => simp [pyLtChars] at h
  | cons a0 as ih =>
    cases b with
    | nil => left; rfl
    | cons b0 bs =>
      rw [pyLtChars] at h
      by_cases hab : a0 = b0
      · subst hab
        rw [if_pos rfl] at h
        rcases ih h with h2 | h2
        · left
          rw [pyLtChars, if_pos rfl]
          exact h2
        · right
          rw [h2]
      · rw [if_neg hab] at h
        have hlt : ¬a0.toNat < b0.toNat := by simpa using h
        have hne : a0.toNat ≠ b0.toNat := fun he => hab (charToNat_inj he)
        left
        rw [pyLtChars, if_neg fun he => hab he.symm]
        simp
        omega

theorem pyLt_irrefl (s : String) : pyLt s s = false := pyLtChars_irrefl s.data

theorem pyLt_trans {a b c : String} (h1 : pyLt a b = true) (h2 : pyLt b c = true) :
    pyLt a c = true := pyLtChars_trans h1 h2

theorem pyLt_tricho {a b : String} (h : pyLt a b = false) :
    pyLt b a = true ∨ a = b := by
  rcases pyLtChars_tricho h with h2 | h2
  · left; exact h2
  · right; exact String.ext h2

theorem pyLt_ge_trans {m l x : String} (h1 : pyLt m l = false) (h2 : pyLt l x = false) :
    pyLt m x = false := by
  cases hmx : pyLt m x with
  | false => rfl
  | true =>
    exfalso
    rcases pyLt_tricho h1 with hlm | hlm
    · rcases pyLt_tricho h2 with hxl | hxl
      · have h3 := pyLt_trans (pyLt_trans hmx hxl) hlm
        rw [pyLt_irrefl] at h3
        simp at h3
      · subst hxl
        have h3 := pyLt_trans hmx hlm
        rw [pyLt_irrefl] at h3
        simp at h3
    · subst hlm
      rcases pyLt_tricho h2 with hxl | hxl
      · have h3 := pyLt_trans hmx hxl
        rw [pyLt_irrefl] at h3
        simp at h3
      · subst hxl
        rw [pyLt_irrefl] at hmx
        simp at hmx

theorem foldl_updLatest (ls : List String) :
    ∀ a : String, ∃ w, List.foldl updLatest (some a) ls = some w
      ∧ w ∈ a :: ls ∧ ∀ l ∈ a :: ls, pyLt w l = false := by
  induction ls with
  | nil =>
    intro a
    refine ⟨a, rfl, by simp, ?_⟩
    intro l hl
    simp at hl
    subst hl
    exact pyLt_irrefl _
  | cons b t ih =>
    intro a
    rw [List.foldl_cons]
    cases hab : pyLt a b with
    | true =>
      have hup : updLatest (some a) b = some b := by simp [updLatest, hab]
      rw [hup]
      obtain ⟨w, hw1, hw2, hw3⟩ := ih b
      have hwb : pyLt w b = false := hw3 b (by simp)
      refine ⟨w, hw1, List.mem_cons_of_mem a hw2, ?_⟩
      intro l hl
      rcases List.mem_cons.1 hl with rfl | hl2
      · cases hwl : pyLt w l with
        | false => rfl
        | true =>
          exfalso
          have h3 := pyLt_trans hwl hab
          rw [hwb] at h3
          simp at h3
      · exact hw3 l hl2
    | false =>
      have hup : updLatest (some a) b = some a := by simp [updLatest, hab]
      rw [hup]
      obtain ⟨w, hw1, hw2, hw3⟩ := ih a
      have hwa : pyLt w a = false := hw3 a (by simp)
      have hmem : w ∈ a :: b :: t := by
        rcases List.mem_cons.1 hw2 with h | h
        · rw [h]
          exact List.mem_cons_self _ _
        · exact List.mem_cons_of_mem _ (List.mem_cons_of_mem _ h)
      refine ⟨w, hw1, hmem, ?_⟩
      intro l hl
      rcases List.mem_cons.1 hl with rfl | hl2
      · exact hwa
      · rcases List.mem_cons.1 hl2 with rfl | hl3
        · exact pyLt_ge_trans hwa hab
        · exact hw3 l (by simp [hl3])

theorem scanFiles_latest :
    ∀ (files : List (String × List (List String)))
      (acc : List (String × List (String × String))) (latest : Option String),
      (scanFiles acc latest files).2 = List.foldl updLatest latest (labelsOf files) := by
  intro files
  induction files with
  | nil =>
    intro acc latest
    simp [scanFiles, labelsOf, successesOf]
  | cons f fs ih =>
    intro acc latest
    rw [scanFiles]
    cases hp : process_csv_file f.2 with
    | none =>
      rw [ih]
      simp [labelsOf, successesOf, hp]
    | some r =>
      rw [ih]
      simp [labelsOf, successesOf, hp]

theorem orderedOf_ne_nil {files : List (String × List (List String))} {w : String}
    (h : w ∈ labelsOf files) : orderedOf files w ≠ [] := by
  rw [labelsOf] at h
  obtain ⟨r, hr, hrw⟩ := List.mem_map.1 h
  rw [orderedOf]
  intro hcon
  have hm : (r.2.1, r.2.2) ∈ (successesOf files).filterMap
      fun r => if r.1 = w then some (r.2.1, r.2.2) else none :=
    List.mem_filterMap.2 ⟨r, hr, by simp [hrw]⟩
  rw [hcon] at hm
  simp at hm

/-- C7: whenever at least one file is successfully processed, the tracked
latest label is the maximum of all successfully extracted period labels
under the Python string comparison, and output.html is written rendered
from exactly the group of that maximum label. -/
theorem C7_latest_alias (files : List (String × List (List String)))
    (h : successesOf files ≠ []) :
    ∃ w, latestOf files = some w
      ∧ w ∈ labelsOf files
      ∧ (∀ l ∈ labelsOf files, pyLt w l = false)
      ∧ ("output.html", generate_html_report w (groupOf files w) true)
          ∈ (mainRun files).writes := by
  have hls : labelsOf files ≠ [] := by
    rw [labelsOf]
    intro hc
    exact h (List.map_eq_nil_iff.1 hc)
  rcases hlbl : labelsOf files with _ | ⟨l0, ls⟩
  · exact absurd hlbl hls
  have hlat : latestOf files = List.foldl updLatest (some l0) ls := by
    rw [latestOf, scanFiles_latest, hlbl, List.foldl_cons]
    rfl
  obtain ⟨w, hw1, hw2, hw3⟩ := foldl_updLatest ls l0
  have hwlab : w ∈ labelsOf files := by rw [hlbl]; exact hw2
  have hlatw : latestOf files = some w := by rw [hlat, hw1]
  refine ⟨w, hlatw, hw2, ?_, ?_⟩
  · intro l hl
    exact hw3 l hl
  · have hord : orderedOf files w ≠ [] := orderedOf_ne_nil hwlab
    have hgrp : groupOf files w ≠ [] := by
      rw [groupOf, groupsOf, scanFiles_group]
      simpa [groupLookup, List.lookup] using hord
    have hne2 : (scanFiles [] none files).1.isEmpty = false := by
      cases hgof : (scanFiles [] none files).1 with
      | nil =>
        exfalso
        apply hgrp
        rw [groupOf, groupsOf, hgof]
        rfl
      | cons e t => simp [hgof]
    have hl2 : (scanFiles [] none files).2 = some w := hlatw
    simp only [mainRun, hne2, Bool.false_eq_true, if_false, hl2]
    refine List.mem_append_left _ (List.mem_append_right _ ?_)
    simp [groupOf, groupsOf]

/-- C7, witness: with two files of labels June-24 and July-24 the string
maximum is June-24 and output.html is rendered from its group. -/
theorem C7_latest_alias_witness :
    latestOf c7files = some "June-24"
    ∧ ("June-24" : String) ∈ labelsOf c7files
    ∧ ("output.html", generate_html_report "June-24" (groupOf c7files "June-24") true)
        ∈ (mainRun c7files).writes := by
  obtain ⟨w, hw1, hw2, hw3, hw4⟩ := C7_latest_alias c7files (by decide)
  have hwv : w = "June-24" := by
    have hc : latestOf c7files = some "June-24" := by decide
    rw [hc] at hw1
    exact (Option.some_inj.1 hw1).symm
  subst hwv
  exact ⟨hw1, hw2, hw4⟩

theorem scanFiles_all_none :
    ∀ files : List (String × List (List String)), successesOf files = [] →
      ∀ (acc : List (String × List (String × String))) (latest : Option String),
        scanFiles acc latest files = (acc, latest) := by
  intro files
  induction files with
  | nil =>
    intro _ acc latest
    rfl
  | cons f fs ih =>
    intro h acc latest
    rw [successesOf, List.filterMap_cons] at h
    cases hp : process_csv_file f.2 with
    | some r =>
      rw [hp] at h
      simp at h
    | none =>
      rw [hp] at h
      rw [scanFiles, hp]
      exact ih h acc latest

/-- C8: when zero files are successfully processed (in particular for an
empty directory), the run writes exactly styles.css with its fixed content
and logs an error; and on every run, whatever the input, the last write is
styles.css with the same fixed content. -/
theorem C8_zero_files (files : List (String × List (List String))) :
    (successesOf files = [] →
      (mainRun files).writes = [("styles.css", generate_css)]
      ∧ Level.error ∈ (mainRun files).logs)
    ∧ (mainRun files).writes.getLast? = some ("styles.css", generate_css) := by
  constructor
  · intro h
    have hsf : scanFiles [] none files = ([], none) := scanFiles_all_none files h [] none
    constructor
    · simp [mainRun, hsf]
    · simp [mainRun, hsf]
  · simp only [mainRun]
    by_cases hc : (scanFiles [] none files).1.isEmpty
    · simp [hc]
    · simp only [hc, Bool.false_eq_true, if_false]
      cases (scanFiles [] none files).2 <;> simp

/-- C8, witness: the empty directory writes only the stylesheet. -/
theorem C8_zero_files_witness :
    (mainRun ([] : List (String × List (List String)))).writes
        = [("styles.css", generate_css)]
    ∧ Level.error ∈ (mainRun ([] : List (String × List (List String)))).logs
    ∧ (mainRun ([] : List (String × List (List String)))).writes.getLast?
        = some ("styles.css", generate_css) := by
  have h := C8_zero_files []
  have h1 := h.1 (by decide)
  exact ⟨h1.1, h1.2, h.2⟩


/-! ## Symbolic substring and append lemmas for the rendered pages -/

theorem leadsWith_self (pat rest : List Char) : leadsWith pat (pat ++ rest) = true := by
  induction pat with
  | nil => rfl
  | cons p ps ih => simp [leadsWith, ih]

theorem substrB_nil_pat (s : List Char) : substrB [] s = true := by
  cases s <;> simp [substrB, leadsWith]

theorem substrB_found (pre pat post : List Char) :
    substrB pat (pre ++ (pat ++ post)) = true := by
  induction pre with
  | nil =>
    cases pat with
    | nil => exact substrB_nil_pat _
    | cons p ps =>
      simp only [List.nil_append, List.cons_append, substrB]
      have h := leadsWith_self (p :: ps) post
      simp only [List.cons_append] at h
      simp [h]
  | cons c pre ih =>
    simp only [List.cons_append, substrB]
    simp [show substrB pat (pre ++ (pat ++ post)) = true from ih]

theorem strAssoc (a b c : String) : a ++ b ++ c = a ++ (b ++ c) := by
  apply String.ext
  simp [String.data_append]

theorem strContains_mid (a pat c : String) : strContains (a ++ pat ++ c) pat = true := by
  rw [strContains]
  have hd : (a ++ pat ++ c).data = a.data ++ (pat.data ++ c.data) := by
    simp [String.data_append]
  rw [hd]
  exact substrB_found a.data pat.data c.data

theorem strEmptyAppend (s : String) : "" ++ s = s := by
  apply String.ext
  simp [String.data_append]

theorem join_one (a : String) : String.join [a] = a := by
  apply String.ext
  simp [String.join, String.data_append]

theorem join_three (a b c : String) : String.join [a, b, c] = a ++ b ++ c := by
  apply String.ext
  simp [String.join, String.data_append]

theorem strContains_mid5 (a b pat c d : String) :
    strContains (a ++ (b ++ pat ++ c) ++ d) pat = true := by
  have h : a ++ (b ++ pat ++ c) ++ d = (a ++ b) ++ pat ++ (c ++ d) := by
    apply String.ext
    simp [String.data_append]
  rw [h]
  exact strContains_mid _ _ _

theorem report_structure (d : String) (pc : String × String) (f : Bool) :
    generate_html_report d [pc] f
      = reportTitleHead (if f then "Latest Experience Portal Data"
            else "Experience Portal Data - " ++ d)
        ++ tableHtml [pc] ++ reportAfterTable := by
  apply String.ext
  simp only [generate_html_report, reportHead, reportTail, tableHtml, reportTitleHead,
    List.map_cons, List.map_nil, join_one, String.data_append, List.append_assoc]

theorem c5_index_structure :
    generate_index_html c5items
      = indexHead ++ (liFrag ("June-24", "report_June-24.html")
          ++ liFrag ("July-24", "report_July-24.html")
          ++ liFrag ("August-24", "report_August-24.html")) ++ indexTail := by
  rw [generate_index_html,
    show pySortDesc c5items
      = [("June-24", "report_June-24.html"), ("July-24", "report_July-24.html"),
         ("August-24", "report_August-24.html")] from by decide]
  simp only [List.map_cons, List.map_nil]
  rw [join_three]

/-- C5, counterexample: the index renderer does sort descending by string,
but descending string order on the set July-24, June-24, August-24 is
June-24, July-24, August-24 (June exceeds July at the third character and
August is smallest at the first), not the claimed August-24, July-24,
June-24: the rendered page lists the three links in the order June-24,
July-24, August-24. -/
theorem C5_counterexample :
    pySortDesc c5items
      = [("June-24", "report_June-24.html"), ("July-24", "report_July-24.html"),
         ("August-24", "report_August-24.html")]
    ∧ pySortDesc c5items
        ≠ [("August-24", "report_August-24.html"), ("July-24", "report_July-24.html"),
           ("June-24", "report_June-24.html")]
    ∧ generate_index_html c5items
        = indexHead ++ (liFrag ("June-24", "report_June-24.html")
            ++ liFrag ("July-24", "report_July-24.html")
            ++ liFrag ("August-24", "report_August-24.html")) ++ indexTail :=
  ⟨by decide, by decide, c5_index_structure⟩

/-- C5, amended: the index lists report links sorted by period label in
descending lexicographic string order, not calendar order: for the period
set July-24, June-24, August-24 the generated index lists them in the order
June-24, July-24, August-24, and the three links appear adjacently in that
order in the rendered page. -/
theorem C5_amended_order :
    pySortDesc c5items
      = [("June-24", "report_June-24.html"), ("July-24", "report_July-24.html"),
         ("August-24", "report_August-24.html")]
    ∧ strContains (generate_index_html c5items)
        (liFrag ("June-24", "report_June-24.html")
          ++ liFrag ("July-24", "report_July-24.html")
          ++ liFrag ("August-24", "report_August-24.html")) = true := by
  refine ⟨by decide, ?_⟩
  rw [c5_index_structure]
  exact strContains_mid _ _ _

/-- C1: end-to-end on a directory holding exactly one CSV file with rows
Time Period/July 20, 2024, Peak Contacts (rows)/42, Experience Portal with
an empty second cell, a blank row, and PortalA: the run writes
report_July-24.html whose table holds the row with cells PortalA and 42,
index.html holding a link to that report file, output.html whose table
content equals that of the report (both pages contain the identical table
element rendered from the same single entry), and styles.css, in that
order. -/
theorem C1_end_to_end :
    (mainRun [("data.csv", c1rows)]).writes
      = [("report_July-24.html", generate_html_report "July-24" [("PortalA", "42")] false),
         ("index.html", generate_index_html [("July-24", "report_July-24.html")]),
         ("output.html", generate_html_report "July-24" [("PortalA", "42")] true),
         ("styles.css", generate_css)]
    ∧ strContains (generate_html_report "July-24" [("PortalA", "42")] false)
        (rowFrag ("PortalA", "42")) = true
    ∧ strContains (generate_index_html [("July-24", "report_July-24.html")])
        "<a href=\"report_July-24.html\">" = true
    ∧ strContains (generate_html_report "July-24" [("PortalA", "42")] false)
        (tableHtml [("PortalA", "42")]) = true
    ∧ strContains (generate_html_report "July-24" [("PortalA", "42")] true)
        (tableHtml [("PortalA", "42")]) = true := by
  have hsf : scanFiles [] none [("data.csv", c1rows)]
      = ([("July-24", [("PortalA", "42")])], some "July-24") := by decide
  have hrn : reportName "July-24" = "report_July-24.html" := by decide
  have hrow : ∀ f : Bool, generate_html_report "July-24" [("PortalA", "42")] f
      = reportTitleHead (if f then "Latest Experience Portal Data"
            else "Experience Portal Data - " ++ "July-24")
        ++ (tableHead ++ rowFrag ("PortalA", "42") ++ tableClose) ++ reportAfterTable := by
    intro f
    rw [report_structure]
    rw [tableHtml]
    simp only [List.map_cons, List.map_nil, join_one]
  refine ⟨?_, ?_, ?_, ?_, ?_⟩
  · simp only [mainRun, hsf]
    simp [groupLookup, List.lookup, hrn]
  · rw [hrow false]
    exact strContains_mid5 _ _ _ _ _
  · rw [generate_index_html,
      show pySortDesc [("July-24", "report_July-24.html")]
        = [("July-24", "report_July-24.html")] from by decide]
    simp only [List.map_cons, List.map_nil, join_one]
    rw [show liFrag ("July-24", "report_July-24.html")
        = "<li>" ++ "<a href=\"report_July-24.html\">" ++ "July-24</a></li>" from by decide]
    exact strContains_mid5 _ _ _ _ _
  · rw [report_structure]
    exact strContains_mid _ _ _
  · rw [report_structure]
    exact strContains_mid _ _ _
